import Mathlib

/-!
Shallow embedding of the `glicko` Python package (files `src/glicko/models.py`
and `src/glicko/glicko.py`) and proofs about its specification claims.

Python floats are modelled as real numbers; a Python function that can raise
an exception is modelled as a function into `Option`.
-/

namespace Glicko

/-! ### models.py -/

/-- `PlayerRating` dataclass from `models.py`: a rating and a rating
deviation.  The Python constructor stores both fields unchanged (there is no
`__post_init__`), with defaults 1500.0 and 350.0. -/
structure PlayerRating where
  rating : ℝ
  rd : ℝ

/-- The default `PlayerRating()`: rating 1500.0, rd 350.0. -/
def PlayerRating.default : PlayerRating := ⟨1500, 350⟩

/-- `Match` dataclass fields from `models.py` (the validation performed by
`__post_init__` is modelled separately by `Match.mk?`). -/
structure Match where
  player1 : String
  player2 : String
  result : String
deriving DecidableEq

/-- One step of Python `int()` over a decimal digit string:
`natOfDigits` folds `10*n + digit` left to right. -/
def natOfDigits (cs : List Char) : Nat :=
  cs.foldl (fun n c => 10 * n + (c.toNat - 48)) 0

/-- Decomposition of a character list according to the regular expression
`\d+-\d+` used by `Match.__post_init__` (`re.fullmatch(r"\d+-\d+", result)`):
a nonempty run of digits, a dash, a nonempty run of digits; returns the two
digit runs on success. -/
def resultParts (cs : List Char) : Option (List Char × List Char) :=
  let pre := cs.takeWhile (fun c => c.isDigit)
  match cs.dropWhile (fun c => c.isDigit) with
  | '-' :: post =>
      if pre ≠ [] ∧ post ≠ [] ∧ post.all (fun c => c.isDigit) then
        some (pre, post)
      else none
  | _ => none

/-- `re.fullmatch(r"\d+-\d+", s)` succeeds. -/
def validResult (s : String) : Bool := (resultParts s.data).isSome

/-- `map(int, result.split("-"))` for a valid result string: the two
non-negative integers of the result. -/
def parseResult (s : String) : Option (Nat × Nat) :=
  (resultParts s.data).map fun pq => (natOfDigits pq.1, natOfDigits pq.2)

/-- Constructing a `Match` in Python runs `__post_init__`, which raises
`ValueError` unless the result string fullmatches `\d+-\d+`.  Modelled as an
`Option`-returning smart constructor. -/
def Match.mk? (player1 player2 result : String) : Option Match :=
  if validResult result then some ⟨player1, player2, result⟩ else none

/-- Python truthiness of the optional `player` argument of `Match.score`:
`None` and the empty string are falsy, any other string is truthy. -/
def truthy : Option String → Bool
  | none => false
  | some s => !(s == "")

/-- `Match.score` from `models.py`.  Raises (returns `none`) when the
`player` argument is truthy and names neither participant; otherwise parses
the result string, scores it from `player1`'s point of view (1 / 0 / 0.5),
and flips the score when the truthy `player` equals `player2`. -/
def Match.score (m : Match) (player : Option String) : Option ℝ :=
  if truthy player && !(player == some m.player1) && !(player == some m.player2) then
    none
  else
    (parseResult m.result).map fun ab =>
      let base : ℝ := if ab.1 > ab.2 then 1 else if ab.1 < ab.2 then 0 else 0.5
      if truthy player && (player == some m.player2) then 1 - base else base

/-! ### glicko.py -/

noncomputable section

/-- `Q = math.log(10) / 400`, the Glicko constant. -/
def Q : ℝ := Real.log 10 / 400

/-- `C = 50`, governing the increase in uncertainty between rating periods. -/
def C : ℝ := 50

/-- `g(rd) = 1 / sqrt(1 + 3 Q² rd² / π²)` from `glicko.py`. -/
def g (rd : ℝ) : ℝ :=
  1 / Real.sqrt (1 + (3 * Q ^ 2 * rd ^ 2) / Real.pi ^ 2)

/-- `e(player_rating, opponent)` from `glicko.py`: the expected score
`1 / (1 + 10 ** (-g(rd_opp) * (r - r_opp) / 400))`. -/
def e (player_rating : ℝ) (opponent : PlayerRating) : ℝ :=
  1 / (1 + (10 : ℝ) ^ (-(g opponent.rd) * (player_rating - opponent.rating) / 400))

/-- The accumulator `d2_inv` computed by the loop in `d_squared`:
left-to-right accumulation of `Q² g(rd_i)² e_i (1 - e_i)` over the opponents. -/
def d2Inv (player_rating : ℝ) (opponents_rating : List PlayerRating) : ℝ :=
  opponents_rating.foldl
    (fun acc opponent =>
      acc + Q ^ 2 * (g opponent.rd) ^ 2 * e player_rating opponent *
        (1 - e player_rating opponent))
    0

/-- `d_squared` from `glicko.py`: `1.0 / d2_inv if d2_inv != 0 else inf`.
The Python value is a float that can be `inf`, modelled in `ENNReal`
(every accumulated term is a square times `e (1-e)` with `e ∈ (0,1)`,
so the value is non-negative). -/
def d_squared (player_rating : ℝ) (opponents_rating : List PlayerRating) : ENNReal :=
  if d2Inv player_rating opponents_rating = 0 then ⊤
  else ENNReal.ofReal (1 / d2Inv player_rating opponents_rating)

/-- `match_win_probability(player, opponent)` from `glicko.py`. -/
def match_win_probability (player opponent : PlayerRating) : ℝ :=
  let g_rd := g (Real.sqrt (player.rd ^ 2 + opponent.rd ^ 2))
  1 / (1 + (10 : ℝ) ^ (-g_rd * (player.rating - opponent.rating) / 400))

/-- The denominator `1 / rd² + 1 / d2` appearing twice in `update_player`
(Python's `1 / inf` is `0.0`, matching `(⊤ : ENNReal)⁻¹.toReal = 0`). -/
def denom (rd : ℝ) (d2 : ENNReal) : ℝ := 1 / rd ^ 2 + (d2⁻¹).toReal

/-- `pre_factor = Q / (1 / player.rd**2 + 1 / d2)` from `update_player`. -/
def preFactor (rd : ℝ) (d2 : ENNReal) : ℝ := Q / denom rd d2

/-- The accumulator `delta_sum` computed by the loop in `update_player`:
left-to-right accumulation of `g(rd_i) * (score_i - e_i)`. -/
def deltaSum (player_rating : ℝ) (opponent_data : List (PlayerRating × ℝ)) : ℝ :=
  opponent_data.foldl
    (fun acc os => acc + g os.1.rd * (os.2 - e player_rating os.1))
    0

/-- `update_player` from `glicko.py`: with no games, grow rd (capped at 350);
otherwise shift the rating by `pre_factor * delta_sum` and shrink rd. -/
def update_player (player : PlayerRating) (opponent_data : List (PlayerRating × ℝ)) :
    PlayerRating :=
  match opponent_data with
  | [] => ⟨player.rating, min (Real.sqrt (player.rd ^ 2 + C ^ 2)) 350⟩
  | _ =>
    let d2 := d_squared player.rating (opponent_data.map Prod.fst)
    ⟨player.rating + preFactor player.rd d2 * deltaSum player.rating opponent_data,
     Real.sqrt (1 / denom player.rd d2)⟩

/-- Looking up a player in the ratings dictionary, modelled as an
association list (`player_ratings[name]`; `none` models `KeyError`). -/
def lookupR (player_ratings : List (String × PlayerRating)) (name : String) :
    Option PlayerRating :=
  List.lookup name player_ratings

/-- The entries that one match contributes to `games_by_player[p]` in the
collection loop of `update_all_players`: `(rating2, score)` when `p` is
`player1` and `(rating1, 1 - score)` when `p` is `player2`, in that order. -/
def matchEntries (player_ratings : List (String × PlayerRating)) (m : Match)
    (p : String) : List (PlayerRating × ℝ) :=
  (match lookupR player_ratings m.player2, m.score none with
   | some r2, some s => if p = m.player1 then [(r2, s)] else []
   | _, _ => []) ++
  (match lookupR player_ratings m.player1, m.score none with
   | some r1, some s => if p = m.player2 then [(r1, 1 - s)] else []
   | _, _ => [])

/-- `games_by_player[p]` after the collection loop of `update_all_players`:
the concatenation, in match order, of each match's contribution for `p`. -/
def gamesOf (player_ratings : List (String × PlayerRating))
    (match_results : List Match) (p : String) : List (PlayerRating × ℝ) :=
  match_results.flatMap (fun m => matchEntries player_ratings m p)

/-- The collection loop of `update_all_players` raises unless both players of
every match are keys of the table (`KeyError`) and every result parses
(guaranteed by `Match.__post_init__` for matches built through `Match.mk?`). -/
def okMatch (player_ratings : List (String × PlayerRating)) (m : Match) : Bool :=
  (lookupR player_ratings m.player1).isSome &&
  (lookupR player_ratings m.player2).isSome &&
  (m.score none).isSome

/-- `update_all_players` from `glicko.py`: collect each player's games from
the entry table, then rebuild the table with `update_player` applied to every
player.  `none` models an exception escaping the collection loop. -/
def update_all_players (player_ratings : List (String × PlayerRating))
    (match_results : List Match) : Option (List (String × PlayerRating)) :=
  if match_results.all (okMatch player_ratings) then
    some (player_ratings.map fun nr =>
      (nr.1, update_player nr.2 (gamesOf player_ratings match_results nr.1)))
  else none

end

/-! ### Basic numeric facts about the rating algebra -/

theorem Q_pos : 0 < Q :=
  div_pos (Real.log_pos (by norm_num)) (by norm_num)

theorem g_pos (rd : ℝ) : 0 < g rd := by
  rw [g]
  have hπ : 0 < Real.pi ^ 2 := by positivity
  have harg : 0 < 1 + (3 * Q ^ 2 * rd ^ 2) / Real.pi ^ 2 := by positivity
  positivity

theorem e_pos (r : ℝ) (o : PlayerRating) : 0 < e r o := by
  rw [e]
  have : (0 : ℝ) < (10 : ℝ) ^ (-(g o.rd) * (r - o.rating) / 400) :=
    Real.rpow_pos_of_pos (by norm_num) _
  positivity

theorem e_lt_one (r : ℝ) (o : PlayerRating) : e r o < 1 := by
  rw [e]
  have h : (0 : ℝ) < (10 : ℝ) ^ (-(g o.rd) * (r - o.rating) / 400) :=
    Real.rpow_pos_of_pos (by norm_num) _
  rw [div_lt_one (by linarith)]
  linarith

theorem foldl_add_sum {α : Type} (f : α → ℝ) (l : List α) :
    ∀ a : ℝ, l.foldl (fun acc x => acc + f x) a = a + (l.map f).sum := by
  induction l with
  | nil => intro a; simp
  | cons x xs ih => intro a; simp [ih, add_assoc]

theorem d2Inv_eq_sum (r : ℝ) (l : List PlayerRating) :
    d2Inv r l = (l.map fun o => Q ^ 2 * (g o.rd) ^ 2 * e r o * (1 - e r o)).sum := by
  rw [d2Inv, foldl_add_sum, zero_add]

theorem deltaSum_eq_sum (r : ℝ) (data : List (PlayerRating × ℝ)) :
    deltaSum r data = (data.map fun os => g os.1.rd * (os.2 - e r os.1)).sum := by
  rw [deltaSum, foldl_add_sum, zero_add]

theorem d2Inv_nonneg (r : ℝ) (l : List PlayerRating) : 0 ≤ d2Inv r l := by
  rw [d2Inv_eq_sum]
  refine List.sum_nonneg ?_
  intro x hx
  obtain ⟨o, _, rfl⟩ := List.mem_map.mp hx
  have h1 := e_pos r o
  have h2 := e_lt_one r o
  have h3 : (0 : ℝ) ≤ 1 - e r o := by linarith
  positivity

theorem toReal_inv_d_squared (r : ℝ) (l : List PlayerRating) :
    ((d_squared r l)⁻¹).toReal = d2Inv r l := by
  rw [d_squared]
  by_cases h : d2Inv r l = 0
  · simp [h]
  · have hpos : 0 < d2Inv r l := (d2Inv_nonneg r l).lt_of_ne (Ne.symm h)
    rw [if_neg h, one_div, ENNReal.ofReal_inv_of_pos hpos, inv_inv,
      ENNReal.toReal_ofReal hpos.le]

theorem denom_d_squared (rd r : ℝ) (l : List PlayerRating) :
    denom rd (d_squared r l) = 1 / rd ^ 2 + d2Inv r l := by
  rw [denom, toReal_inv_d_squared]

theorem logistic_add_logistic_neg (y : ℝ) :
    1 / (1 + (10 : ℝ) ^ (-y)) + 1 / (1 + (10 : ℝ) ^ y) = 1 := by
  have ht : (0 : ℝ) < (10 : ℝ) ^ y := Real.rpow_pos_of_pos (by norm_num) y
  rw [Real.rpow_neg (by norm_num : (0 : ℝ) ≤ 10)]
  have h1 : (1 : ℝ) + ((10 : ℝ) ^ y)⁻¹ ≠ 0 := by positivity
  have h2 : (1 : ℝ) + (10 : ℝ) ^ y ≠ 0 := by positivity
  field_simp
  ring

theorem takeWhile_all_append (p : Char → Bool) (a : List Char) (x : Char)
    (b : List Char) (ha : ∀ c ∈ a, p c = true) (hx : p x = false) :
    (a ++ x :: b).takeWhile p = a ∧ (a ++ x :: b).dropWhile p = x :: b := by
  induction a with
  | nil => simp [List.takeWhile_cons, List.dropWhile_cons, hx]
  | cons c cs ih =>
    have hc : p c = true := ha c (by simp)
    have ih' := ih fun d hd => ha d (by simp [hd])
    simp [List.takeWhile_cons, List.dropWhile_cons, hc, ih'.1, ih'.2]

theorem resultParts_isSome_iff (cs : List Char) :
    (resultParts cs).isSome = true ↔
      ∃ a b : List Char, a ≠ [] ∧ b ≠ [] ∧ (∀ c ∈ a, c.isDigit = true) ∧
        (∀ c ∈ b, c.isDigit = true) ∧ cs = a ++ '-' :: b := by
  constructor
  · intro h
    simp only [resultParts] at h
    split at h
    next post heq =>
      split at h
      next hcond =>
        refine ⟨cs.takeWhile (fun c => c.isDigit), post, hcond.1, hcond.2.1,
          ?_, ?_, ?_⟩
        · intro c hc; exact List.mem_takeWhile_imp hc
        · intro c hc; exact List.all_eq_true.mp hcond.2.2 c hc
        · conv_lhs => rw [← List.takeWhile_append_dropWhile (fun c => c.isDigit) cs]
          rw [heq]
      next => simp at h
    next => simp at h
  · rintro ⟨a, b, ha, hb, hda, hdb, rfl⟩
    have hsplit := takeWhile_all_append (fun c => c.isDigit) a '-' b hda rfl
    simp only [resultParts, hsplit.1, hsplit.2]
    rw [if_pos ⟨ha, hb, List.all_eq_true.mpr hdb⟩]
    rfl

theorem perm_all {α : Type} (f : α → Bool) {l1 l2 : List α} (h : l1.Perm l2) :
    l1.all f = l2.all f := by
  rw [Bool.eq_iff_iff]
  simp only [List.all_eq_true]
  exact ⟨fun H x hx => H x (h.mem_iff.mpr hx), fun H x hx => H x (h.mem_iff.mp hx)⟩

theorem d2Inv_perm (r : ℝ) {l1 l2 : List PlayerRating} (h : l1.Perm l2) :
    d2Inv r l1 = d2Inv r l2 := by
  rw [d2Inv_eq_sum, d2Inv_eq_sum]
  exact (h.map _).sum_eq

theorem deltaSum_perm (r : ℝ) {d1 d2 : List (PlayerRating × ℝ)} (h : d1.Perm d2) :
    deltaSum r d1 = deltaSum r d2 := by
  rw [deltaSum_eq_sum, deltaSum_eq_sum]
  exact (h.map _).sum_eq

theorem d_squared_perm (r : ℝ) {l1 l2 : List PlayerRating} (h : l1.Perm l2) :
    d_squared r l1 = d_squared r l2 := by
  rw [d_squared, d_squared, d2Inv_perm r h]

theorem update_player_cons (p : PlayerRating) (z : PlayerRating × ℝ)
    (zs : List (PlayerRating × ℝ)) :
    update_player p (z :: zs) =
      ⟨p.rating + preFactor p.rd (d_squared p.rating ((z :: zs).map Prod.fst)) *
          deltaSum p.rating (z :: zs),
        Real.sqrt (1 / denom p.rd (d_squared p.rating ((z :: zs).map Prod.fst)))⟩ :=
  rfl

theorem update_player_perm (p : PlayerRating) {d1 d2 : List (PlayerRating × ℝ)}
    (h : d1.Perm d2) : update_player p d1 = update_player p d2 := by
  cases d1 with
  | nil => rw [← h.nil_eq]
  | cons x xs =>
    cases d2 with
    | nil => exact absurd h.symm.nil_eq (by simp)
    | cons y ys =>
      rw [update_player_cons, update_player_cons,
        d_squared_perm p.rating (h.map Prod.fst), deltaSum_perm p.rating h]

theorem gamesOf_perm (R : List (String × PlayerRating)) {ms1 ms2 : List Match}
    (h : ms1.Perm ms2) (p : String) : (gamesOf R ms1 p).Perm (gamesOf R ms2 p) :=
  h.flatMap_right _

theorem lookup_update_map (R : List (String × PlayerRating))
    (G : String → List (PlayerRating × ℝ)) (q : String) :
    List.lookup q (R.map fun nr => (nr.1, update_player nr.2 (G nr.1))) =
      (List.lookup q R).map fun r => update_player r (G q) := by
  induction R with
  | nil => rfl
  | cons x xs ih =>
    obtain ⟨n, r⟩ := x
    by_cases h : (q == n) = true
    · have hqn : q = n := eq_of_beq h
      subst hqn
      simp [List.lookup]
    · have hf : (q == n) = false := by simpa using h
      simp [List.lookup, hf, ih]

/-! ### Claim theorems -/

/-- C10: for every pair of `PlayerRating` values `A` and `B`,
`match_win_probability A B + match_win_probability B A = 1`, where the win
probability uses the expected-score formula with the combined rating
deviation `sqrt(rdA² + rdB²)` in place of a single opponent's rd. -/
theorem match_win_probability_symm (A B : PlayerRating) :
    match_win_probability A B + match_win_probability B A = 1 := by
  show 1 / (1 + (10 : ℝ) ^
        (-(g (Real.sqrt (A.rd ^ 2 + B.rd ^ 2))) * (A.rating - B.rating) / 400)) +
      1 / (1 + (10 : ℝ) ^
        (-(g (Real.sqrt (B.rd ^ 2 + A.rd ^ 2))) * (B.rating - A.rating) / 400)) = 1
  rw [show Real.sqrt (B.rd ^ 2 + A.rd ^ 2) = Real.sqrt (A.rd ^ 2 + B.rd ^ 2) from by
        rw [add_comm],
      show -(g (Real.sqrt (A.rd ^ 2 + B.rd ^ 2))) * (B.rating - A.rating) / 400 =
          g (Real.sqrt (A.rd ^ 2 + B.rd ^ 2)) * (A.rating - B.rating) / 400 from by ring,
      show -(g (Real.sqrt (A.rd ^ 2 + B.rd ^ 2))) * (A.rating - B.rating) / 400 =
          -(g (Real.sqrt (A.rd ^ 2 + B.rd ^ 2)) * (A.rating - B.rating) / 400) from by
        ring]
  exact logistic_add_logistic_neg _

/-- C3: a player with zero matches keeps their rating and gets
`rd' = min(sqrt(rd² + C²), 350)`; starting from `0 ≤ rd ≤ 350` this idle
update never decreases rd and never exceeds the 350 ceiling, so iterating it
monotonically increases rd up to 350. -/
theorem update_player_idle (p : PlayerRating) (h0 : 0 ≤ p.rd) (h350 : p.rd ≤ 350) :
    update_player p [] = ⟨p.rating, min (Real.sqrt (p.rd ^ 2 + C ^ 2)) 350⟩ ∧
    p.rd ≤ (update_player p []).rd ∧ (update_player p []).rd ≤ 350 := by
  refine ⟨rfl, ?_, ?_⟩
  · show p.rd ≤ min (Real.sqrt (p.rd ^ 2 + C ^ 2)) 350
    refine le_min ?_ h350
    calc p.rd = Real.sqrt (p.rd ^ 2) := (Real.sqrt_sq h0).symm
      _ ≤ Real.sqrt (p.rd ^ 2 + C ^ 2) :=
        Real.sqrt_le_sqrt (le_add_of_nonneg_right (by rw [C]; norm_num))
  · show min (Real.sqrt (p.rd ^ 2 + C ^ 2)) 350 ≤ 350
    exact min_le_right _ _

/-- C3 witness at the concrete player (1500, 100). -/
theorem update_player_idle_witness :
    update_player ⟨1500, 100⟩ [] =
      ⟨(1500 : ℝ), min (Real.sqrt ((100 : ℝ) ^ 2 + C ^ 2)) 350⟩ ∧
    (100 : ℝ) ≤ (update_player ⟨1500, 100⟩ []).rd ∧
    (update_player ⟨1500, 100⟩ []).rd ≤ 350 :=
  update_player_idle ⟨1500, 100⟩ (by norm_num) (by norm_num)

/-- C9: when the accumulated `d2_inv` sum is exactly zero, `d_squared`
returns infinity rather than failing, and the `1/d²` contributions to the
update vanish: the update weight becomes `Q·rd²` (the prior rd² scaling) and
the new rd equals the old rd. -/
theorem d_squared_zero_information (r : ℝ) (opps : List PlayerRating) (rd : ℝ)
    (hz : d2Inv r opps = 0) (hrd : 0 < rd) :
    d_squared r opps = ⊤ ∧
    preFactor rd (d_squared r opps) = Q * rd ^ 2 ∧
    Real.sqrt (1 / denom rd (d_squared r opps)) = rd := by
  have hd : d_squared r opps = ⊤ := by rw [d_squared, if_pos hz]
  have hden : denom rd (d_squared r opps) = 1 / rd ^ 2 := by
    rw [denom, hd]
    simp
  refine ⟨hd, ?_, ?_⟩
  · rw [preFactor, hden, one_div, div_inv_eq_mul]
  · rw [hden, one_div_one_div, Real.sqrt_sq hrd.le]

/-- C9 witness: the empty opponent list accumulates exactly zero. -/
theorem d_squared_zero_information_witness :
    d_squared 1500 [] = ⊤ ∧
    preFactor 350 (d_squared 1500 []) = Q * 350 ^ 2 ∧
    Real.sqrt (1 / denom 350 (d_squared 1500 [])) = 350 :=
  d_squared_zero_information 1500 [] 350 rfl (by norm_num)

/-- C8 counterexample: the `PlayerRating` constructor performs no clamping,
so a rating deviation above 350 passes through unchanged. -/
theorem playerRating_construction_not_clamped :
    (PlayerRating.mk 1500 400).rd = 400 ∧ ¬(PlayerRating.mk 1500 400).rd ≤ 350 := by
  refine ⟨rfl, ?_⟩
  show ¬(400 : ℝ) ≤ 350
  norm_num

/-- C8 (amended): construction stores the supplied rd unchanged (no
clamping); the `rd ≤ 350` bound is instead preserved by `update_player`:
from any player with `0 < rd ≤ 350` it emits a rating with `0 ≤ rd ≤ 350`. -/
theorem playerRating_rd_bound_via_update :
    (∀ r d : ℝ, (PlayerRating.mk r d).rd = d) ∧
    ∀ (p : PlayerRating) (data : List (PlayerRating × ℝ)),
      0 < p.rd → p.rd ≤ 350 →
      0 ≤ (update_player p data).rd ∧ (update_player p data).rd ≤ 350 := by
  refine ⟨fun r d => rfl, ?_⟩
  intro p data hrd h350
  cases data with
  | nil =>
    refine ⟨?_, min_le_right _ _⟩
    exact le_min (Real.sqrt_nonneg _) (by norm_num)
  | cons x xs =>
    refine ⟨Real.sqrt_nonneg _, ?_⟩
    show Real.sqrt
        (1 / denom p.rd (d_squared p.rating ((x :: xs).map Prod.fst))) ≤ 350
    have hrd2 : 0 < 1 / p.rd ^ 2 := by positivity
    have hdenom_ge :
        1 / p.rd ^ 2 ≤ denom p.rd (d_squared p.rating ((x :: xs).map Prod.fst)) := by
      rw [denom]
      have := ENNReal.toReal_nonneg
        (a := (d_squared p.rating ((x :: xs).map Prod.fst))⁻¹)
      linarith
    have h1 : 1 / denom p.rd (d_squared p.rating ((x :: xs).map Prod.fst)) ≤ p.rd ^ 2 := by
      have h2 := one_div_le_one_div_of_le hrd2 hdenom_ge
      rwa [one_div_one_div] at h2
    calc Real.sqrt (1 / denom p.rd (d_squared p.rating ((x :: xs).map Prod.fst)))
        ≤ Real.sqrt (p.rd ^ 2) := Real.sqrt_le_sqrt h1
      _ = p.rd := Real.sqrt_sq hrd.le
      _ ≤ 350 := h350

/-- C8 witness: unclamped construction at (1500, 400) and a bounded update
at the concrete player (1500, 100). -/
theorem playerRating_rd_bound_via_update_witness :
    (PlayerRating.mk 1500 400).rd = 400 ∧
    (0 ≤ (update_player ⟨1500, 100⟩ [(⟨1400, 30⟩, 1)]).rd ∧
      (update_player ⟨1500, 100⟩ [(⟨1400, 30⟩, 1)]).rd ≤ 350) :=
  ⟨playerRating_rd_bound_via_update.1 1500 400,
   playerRating_rd_bound_via_update.2 ⟨1500, 100⟩ [(⟨1400, 30⟩, 1)]
     (by norm_num) (by norm_num)⟩

/-- C2: for a player with at least one match, `update_player` returns
rating `r + K·Σ g(rd_i)(s_i − e_i)` and rd `sqrt(1/(1/rd² + 1/d²))`, where
`K = Q/(1/rd² + 1/d²)` and `1/d²` is the sum `Σ Q²g(rd_i)²e_i(1−e_i)` over
the opponents faced (d² being its inverse). -/
theorem update_player_played_formula (player : PlayerRating)
    (data : List (PlayerRating × ℝ)) (_hrd : 0 < player.rd) (hne : data ≠ []) :
    update_player player data =
      ⟨player.rating +
        Q / (1 / player.rd ^ 2 +
            (data.map fun os =>
              Q ^ 2 * (g os.1.rd) ^ 2 * e player.rating os.1 *
                (1 - e player.rating os.1)).sum) *
          (data.map fun os => g os.1.rd * (os.2 - e player.rating os.1)).sum,
        Real.sqrt (1 / (1 / player.rd ^ 2 +
            (data.map fun os =>
              Q ^ 2 * (g os.1.rd) ^ 2 * e player.rating os.1 *
                (1 - e player.rating os.1)).sum))⟩ := by
  cases data with
  | nil => exact absurd rfl hne
  | cons x xs =>
    show PlayerRating.mk
        (player.rating +
          preFactor player.rd (d_squared player.rating ((x :: xs).map Prod.fst)) *
            deltaSum player.rating (x :: xs))
        (Real.sqrt
          (1 / denom player.rd (d_squared player.rating ((x :: xs).map Prod.fst)))) = _
    rw [preFactor, denom_d_squared, deltaSum_eq_sum, d2Inv_eq_sum, List.map_map]
    rfl

/-- C2 witness at a concrete player and a single opponent. -/
theorem update_player_played_formula_witness :
    update_player ⟨1500, 200⟩ [(⟨1400, 30⟩, 1)] =
      ⟨(PlayerRating.mk 1500 200).rating +
        Q / (1 / (PlayerRating.mk 1500 200).rd ^ 2 +
            (([((⟨1400, 30⟩ : PlayerRating), (1 : ℝ))]).map fun os =>
              Q ^ 2 * (g os.1.rd) ^ 2 * e (PlayerRating.mk 1500 200).rating os.1 *
                (1 - e (PlayerRating.mk 1500 200).rating os.1)).sum) *
          (([((⟨1400, 30⟩ : PlayerRating), (1 : ℝ))]).map fun os =>
            g os.1.rd * (os.2 - e (PlayerRating.mk 1500 200).rating os.1)).sum,
        Real.sqrt (1 / (1 / (PlayerRating.mk 1500 200).rd ^ 2 +
            (([((⟨1400, 30⟩ : PlayerRating), (1 : ℝ))]).map fun os =>
              Q ^ 2 * (g os.1.rd) ^ 2 * e (PlayerRating.mk 1500 200).rating os.1 *
                (1 - e (PlayerRating.mk 1500 200).rating os.1)).sum))⟩ :=
  update_player_played_formula ⟨1500, 200⟩ [(⟨1400, 30⟩, 1)] (by norm_num)
    (List.cons_ne_nil _ _)

/-- C5: constructing a `Match` succeeds exactly when the result string is a
nonempty digit run, a dash, and a nonempty digit run (so it parses into two
non-negative integers); in particular `Match("a","b","two-one")` and
`Match("a","b","-1-2")` both fail. -/
theorem match_mk_valid_iff :
    (∀ p1 p2 s, (Match.mk? p1 p2 s).isSome = true ↔
      ∃ a b : List Char, a ≠ [] ∧ b ≠ [] ∧ (∀ c ∈ a, c.isDigit = true) ∧
        (∀ c ∈ b, c.isDigit = true) ∧ s.data = a ++ '-' :: b) ∧
    Match.mk? "a" "b" "two-one" = none ∧ Match.mk? "a" "b" "-1-2" = none := by
  refine ⟨?_, by decide, by decide⟩
  intro p1 p2 s
  have hs : (Match.mk? p1 p2 s).isSome = validResult s := by
    rw [Match.mk?]
    by_cases h : validResult s <;> simp [h]
  rw [hs, validResult]
  exact resultParts_isSome_iff s.data

/-- C6 counterexample: for the validly constructed `Match("a","a","3-1")`
(same identifier on both sides) the no-perspective score is 1 while the
`player1`-perspective score is 0, so `score()` does not always equal
`score(player1)`; and for `Match("a","","3-1")` the perspective `""` names
`player2`, whose integer is smaller, yet the score returned is 1, not 0. -/
theorem score_perspective_cex :
    Match.score ⟨"a", "a", "3-1"⟩ none = some 1 ∧
    Match.score ⟨"a", "a", "3-1"⟩ (some "a") = some 0 ∧
    Match.score ⟨"a", "", "3-1"⟩ (some "") = some 1 := by
  refine ⟨?_, ?_, ?_⟩ <;>
  · rw [Match.score, show parseResult "3-1" = some (3, 1) from by decide]
    norm_num [truthy]
    try decide

/-- C6 (amended): for every validly constructed `Match` whose two player
identifiers differ, `score()` and `score(player1)` both return the
player1-side value (1 / 0 / 0.5 as player1's integer is larger / smaller /
equal), so `score() = score(player1)`; and when additionally `player2` is
not the empty string, `score(player2)` returns the player2-side value. -/
theorem score_semantics (m : Match) (a b : Nat)
    (hparse : parseResult m.result = some (a, b)) (hne : m.player1 ≠ m.player2) :
    m.score none = some (if a > b then (1 : ℝ) else if a < b then 0 else 0.5) ∧
    m.score (some m.player1) = m.score none ∧
    (m.player2 ≠ "" →
      m.score (some m.player2) =
        some (if b > a then (1 : ℝ) else if b < a then 0 else 0.5)) := by
  have hb : (m.player1 == m.player2) = false := beq_eq_false_iff_ne.mpr hne
  have h1 : m.score none =
      some (if a > b then (1 : ℝ) else if a < b then 0 else 0.5) := by
    rw [Match.score, hparse]
    simp [truthy]
  refine ⟨h1, ?_, ?_⟩
  · rw [h1, Match.score, hparse]
    simp [truthy, hb]
  · intro hp2
    have htr : truthy (some m.player2) = true := by simp [truthy, hp2]
    have hguard : (truthy (some m.player2) &&
        !((some m.player2 : Option String) == some m.player1) &&
        !((some m.player2 : Option String) == some m.player2)) = false := by
      simp
    rw [Match.score, hguard, if_neg (by simp), hparse]
    simp only [Option.map_some, htr, Option.some.injEq]
    rcases Nat.lt_trichotomy a b with h | h | h
    · simp [h, Nat.lt_asymm h, Nat.lt_irrefl]
    · subst h
      simp [Nat.lt_irrefl]
      norm_num
    · simp [h, Nat.lt_asymm h, Nat.lt_irrefl]

/-- C6 witness at the concrete match ("a","b","3-1"). -/
theorem score_semantics_witness :
    Match.score ⟨"a", "b", "3-1"⟩ none =
      some (if 3 > 1 then (1 : ℝ) else if 3 < 1 then 0 else 0.5) ∧
    Match.score ⟨"a", "b", "3-1"⟩ (some "a") = Match.score ⟨"a", "b", "3-1"⟩ none ∧
    Match.score ⟨"a", "b", "3-1"⟩ (some "b") =
      some (if 1 > 3 then (1 : ℝ) else if 1 < 3 then 0 else 0.5) :=
  ⟨(score_semantics ⟨"a", "b", "3-1"⟩ 3 1 (by decide) (by decide)).1,
   (score_semantics ⟨"a", "b", "3-1"⟩ 3 1 (by decide) (by decide)).2.1,
   (score_semantics ⟨"a", "b", "3-1"⟩ 3 1 (by decide) (by decide)).2.2 (by decide)⟩

/-- C7 counterexample: the empty string is neither participant of
`Match("a","b","1-0")`, yet requesting it as perspective does not fail — the
player1-view score 1 is returned (Python's `if player` treats `""` as
falsy). -/
theorem score_empty_perspective_no_error :
    Match.score ⟨"a", "b", "1-0"⟩ (some "") = some 1 := by
  rw [Match.score, show parseResult "1-0" = some (1, 0) from by decide]
  norm_num [truthy]

/-- C7 (amended): every non-empty perspective string that names neither
`player1` nor `player2` makes `Match.score` fail; the empty string is
instead treated like an absent perspective. -/
theorem score_nonempty_nonparticipant_fails (m : Match) (p : String)
    (hp : p ≠ "") (h1 : p ≠ m.player1) (h2 : p ≠ m.player2) :
    m.score (some p) = none := by
  have hguard : (truthy (some p) && !((some p : Option String) == some m.player1) &&
      !((some p : Option String) == some m.player2)) = true := by
    simp [truthy, hp, h1, h2]
  rw [Match.score, if_pos hguard]

/-- C7 witness: the non-participant "c" makes `score` fail. -/
theorem score_nonempty_nonparticipant_fails_witness :
    Match.score ⟨"a", "b", "1-0"⟩ (some "c") = none :=
  score_nonempty_nonparticipant_fails ⟨"a", "b", "1-0"⟩ "c" (by decide) (by decide)
    (by decide)

/-- C1: the outcome of `update_all_players` is invariant under permuting
the match list (every opponent lookup uses the entry table, never an
in-progress value), and, as a lookup table, it depends on the ratings table
only through lookup — so neither the internal order of matches nor the order
in which players are stored/iterated affects any player's updated rating. -/
theorem update_all_players_order_invariant
    (R1 R2 : List (String × PlayerRating)) (ms1 ms2 : List Match)
    (hms : ms1.Perm ms2) (hR : ∀ q, lookupR R1 q = lookupR R2 q) :
    update_all_players R1 ms1 = update_all_players R1 ms2 ∧
    ∀ q, (update_all_players R1 ms1).map (fun t => List.lookup q t) =
      (update_all_players R2 ms1).map (fun t => List.lookup q t) := by
  constructor
  · rw [update_all_players, update_all_players, perm_all (okMatch R1) hms]
    by_cases h : ms2.all (okMatch R1)
    · rw [if_pos h, if_pos h]
      congr 1
      refine List.map_congr_left ?_
      intro nr _
      rw [update_player_perm nr.2 (gamesOf_perm R1 hms nr.1)]
    · rw [if_neg h, if_neg h]
  · intro q
    have hokf : okMatch R1 = okMatch R2 := by
      funext m
      rw [okMatch, okMatch, hR, hR]
    have hR' : ∀ q', List.lookup q' R1 = List.lookup q' R2 := hR
    have hg : gamesOf R1 ms1 q = gamesOf R2 ms1 q := by
      rw [gamesOf, gamesOf]
      have hent : (fun m => matchEntries R1 m q) = fun m => matchEntries R2 m q := by
        funext m
        rw [matchEntries, matchEntries, hR, hR]
      rw [hent]
    rw [update_all_players, update_all_players, hokf]
    by_cases h : ms1.all (okMatch R2)
    · rw [if_pos h, if_pos h]
      simp only [Option.map_some']
      rw [lookup_update_map R1 (gamesOf R1 ms1) q,
        lookup_update_map R2 (gamesOf R2 ms1) q, hR' q, hg]
    · rw [if_neg h, if_neg h]

/-- C1 witness: two orderings of a two-match period over the same two-player
table, and a reordered table, all agree. -/
theorem update_all_players_order_invariant_witness :
    update_all_players
        [("a", ⟨1500, 200⟩), ("b", ⟨1400, 30⟩)]
        [⟨"a", "b", "2-1"⟩, ⟨"b", "a", "3-0"⟩] =
      update_all_players
        [("a", ⟨1500, 200⟩), ("b", ⟨1400, 30⟩)]
        [⟨"b", "a", "3-0"⟩, ⟨"a", "b", "2-1"⟩] ∧
    ∀ q,
      (update_all_players [("a", ⟨1500, 200⟩), ("b", ⟨1400, 30⟩)]
          [⟨"a", "b", "2-1"⟩, ⟨"b", "a", "3-0"⟩]).map (fun t => List.lookup q t) =
      (update_all_players [("b", ⟨1400, 30⟩), ("a", ⟨1500, 200⟩)]
          [⟨"a", "b", "2-1"⟩, ⟨"b", "a", "3-0"⟩]).map (fun t => List.lookup q t) :=
  update_all_players_order_invariant
    [("a", ⟨1500, 200⟩), ("b", ⟨1400, 30⟩)]
    [("b", ⟨1400, 30⟩), ("a", ⟨1500, 200⟩)]
    [⟨"a", "b", "2-1"⟩, ⟨"b", "a", "3-0"⟩]
    [⟨"b", "a", "3-0"⟩, ⟨"a", "b", "2-1"⟩]
    (List.Perm.swap _ _ _)
    (by
      intro q
      rw [lookupR, lookupR]
      by_cases ha : (q == "a") = true
      · have : q = "a" := eq_of_beq ha
        subst this
        simp [List.lookup]
      · have hfa : (q == "a") = false := by simpa using ha
        by_cases hb : (q == "b") = true
        · have : q = "b" := eq_of_beq hb
          subst this
          simp [List.lookup]
        · have hfb : (q == "b") = false := by simpa using hb
          simp [List.lookup, hfa, hfb])

/-- C4: if some match mentions a player that is not a key of the ratings
table, `update_all_players` fails (models the `KeyError` raised while
collecting games); and whenever it succeeds, the output table has exactly
the input table's keys — no default-rated player is ever created. -/
theorem update_all_players_unknown_player
    (ratings : List (String × PlayerRating)) (ms : List Match)
    (hm : ∃ m ∈ ms, lookupR ratings m.player1 = none ∨
      lookupR ratings m.player2 = none) :
    update_all_players ratings ms = none ∧
    ∀ (ms2 : List Match) (out : List (String × PlayerRating)),
      update_all_players ratings ms2 = some out →
      out.map Prod.fst = ratings.map Prod.fst := by
  constructor
  · obtain ⟨m, hmem, hbad⟩ := hm
    rw [update_all_players, if_neg]
    intro hall
    have hok := List.all_eq_true.mp hall m hmem
    rw [okMatch] at hok
    rcases hbad with hb | hb <;> simp [hb] at hok
  · intro ms2 out hout
    rw [update_all_players] at hout
    by_cases h : ms2.all (okMatch ratings)
    · rw [if_pos h, Option.some.injEq] at hout
      rw [← hout, List.map_map]
      rfl
    · rw [if_neg h] at hout
      exact absurd hout (by simp)

/-- C4 witness: a match against the unregistered player "b" makes the
update fail. -/
theorem update_all_players_unknown_player_witness :
    update_all_players [("a", ⟨1500, 350⟩)] [⟨"a", "b", "1-0"⟩] = none :=
  (update_all_players_unknown_player [("a", ⟨1500, 350⟩)] [⟨"a", "b", "1-0"⟩]
    ⟨⟨"a", "b", "1-0"⟩, by simp,
      Or.inr (by rw [lookupR]; simp [List.lookup])⟩).1

end Glicko
